import Mathlib

/-!
Shallow embedding of wikisync.py (class WikiSync), a Wikipedia dump
synchronization tool.

Files, directories and modification times are modelled explicitly as
data; network transfers, decompression codecs and the resource probes
are parameters of the functions that consume them, since the source
treats them as external primitives (requests, bz2/gzip, psutil).
-/

/-- A filesystem path, as its list of components. -/
abbrev FPath := List String

/-- File contents, as a list of byte values. -/
abbrev Bytes := List Nat

/-- Index of the last occurrence of a dot in a list of characters
(mirrors the rfind used by pathlib on a file name). -/
def lastDotIdx : List Char → Option Nat
  | [] => none
  | c :: rest =>
    match lastDotIdx rest with
    | some i => some (i + 1)
    | none => if c = '.' then some 0 else none

/-- Python pathlib suffix of a file name: the final dot-extension, empty
unless the last dot sits strictly inside the name. -/
def suffixOfName (name : String) : String :=
  let cs := name.toList
  match lastDotIdx cs with
  | some i => if 0 < i ∧ i < cs.length - 1 then String.mk (cs.drop i) else ""
  | none => ""

/-- Python pathlib stem of a file name: the name with its suffix removed. -/
def stemOfName (name : String) : String :=
  let cs := name.toList
  match lastDotIdx cs with
  | some i => if 0 < i ∧ i < cs.length - 1 then String.mk (cs.take i) else name
  | none => name

/-- Final component of a path. -/
def fileName (p : FPath) : String := (p.getLast?).getD ""

/-- Parent of a path. -/
def parentOf (p : FPath) : FPath := p.dropLast

/-- Whether a file name is hidden (starts with a dot). -/
def isHiddenName (name : String) : Bool := name.toList.head? == some '.'

/-- The two compression suffixes the tool recognizes, .bz2 and .gz. -/
def isSupportedSuffix (name : String) : Bool :=
  suffixOfName name == ".bz2" || suffixOfName name == ".gz"

/-- Whether a path lies strictly below a directory (any depth), as
matched by rglob over that directory. -/
def isUnder (d : FPath) (p : FPath) : Bool :=
  d.isPrefixOf p && decide (d.length < p.length)

/-- One regular file: its path, its content and its modification time
(seconds). -/
structure FSFile where
  path : FPath
  content : Bytes
  mtime : Nat
deriving DecidableEq, Repr

/-- A filesystem state: the regular files and the existing directories. -/
structure FS where
  files : List FSFile
  dirs : List FPath
deriving DecidableEq, Repr

/-- Look a file up by path. -/
def FS.findFile (fs : FS) (p : FPath) : Option FSFile :=
  fs.files.find? (fun f => f.path == p)

/-- Path existence check. -/
def FS.existsF (fs : FS) (p : FPath) : Bool := (fs.findFile p).isSome

/-- st_size of the file at a path, when it exists. -/
def FS.statSize (fs : FS) (p : FPath) : Option Nat :=
  (fs.findFile p).map (fun f => f.content.length)

/-- Write (create or truncate) the file at a path. -/
def FS.writeFile (fs : FS) (p : FPath) (c : Bytes) (t : Nat) : FS :=
  { fs with files := ⟨p, c, t⟩ :: fs.files.filter (fun f => !(f.path == p)) }

/-- Remove the file at a path. -/
def FS.unlink (fs : FS) (p : FPath) : FS :=
  { fs with files := fs.files.filter (fun f => !(f.path == p)) }

/-- Rename the file at a path onto another path (content and mtime move
with the file); a no-op when the source is missing. -/
def FS.rename (fs : FS) (p q : FPath) : FS :=
  match fs.findFile p with
  | none => fs
  | some f =>
    { fs with files :=
        ⟨q, f.content, f.mtime⟩ ::
          fs.files.filter (fun g => !(g.path == p) && !(g.path == q)) }

/-- mkdir with parents and exist_ok: record the directory as existing. -/
def FS.mkdirp (fs : FS) (d : FPath) : FS :=
  if fs.dirs.contains d then fs else { fs with dirs := d :: fs.dirs }

/-- The configuration fields the synchronization pipeline reads, plus the
two declared retention and verification settings under test. -/
structure Config where
  downloadDirectory : FPath
  tempDirectory : FPath
  unpackedDirectory : FPath
  canonicalDirectory : FPath
  keepVersions : Nat
  maxAgeDays : Nat
  cleanupAfterSync : Bool
  unpackAfterDownload : Bool
  verifyChecksums : Bool
  maxMemoryMB : Nat
  diskSpaceThresholdGB : Nat
deriving DecidableEq, Repr

/-- One remote dump descriptor, as built by get_dump_info: url, probed
size (0 when the probe failed) and the optional timestamp extracted from
the file name. -/
structure DumpDesc where
  url : String
  size : Nat
  timestamp : Option Nat
deriving DecidableEq, Repr

/-- Outcome of one streamed transfer: whether it succeeded, and the bytes
that reached the temporary file (a partial body when it failed). -/
structure FetchOutcome where
  ok : Bool
  body : Bytes
deriving DecidableEq, Repr

/-- Observable external calls of a cycle: one catalog resolution, one
fetch per attempted download, one unpack call per file handed to the
unpacker, one verify call per checksum verification. -/
inductive Event where
  | resolveCatalog
  | fetchUrl (url : String)
  | unpackEv (p : FPath)
  | verifyEv (p : FPath)
deriving DecidableEq, Repr

/-- The verify-free event counter. -/
def isVerifyEv : Event → Bool
  | Event.verifyEv _ => true
  | _ => false

/-- check_resources: memory below max_memory_mb megabytes or free disk
below disk_space_threshold_gb gigabytes vetoes the cycle.  (The source
compares the disk figure after floating-point division into gigabytes;
the claims do not touch the rounding boundary.) -/
def checkResources (cfg : Config) (availMem freeDisk : Nat) : Bool :=
  if availMem < cfg.maxMemoryMB * 1024 * 1024 then false
  else if freeDisk < cfg.diskSpaceThresholdGB * 1024 * 1024 * 1024 then false
  else true

/-- verify_checksum: streaming digest of the file compared with the
expected hex string; the digest itself is an external primitive. -/
def verifyChecksum (md5hex : Bytes → String) (fs : FS) (p : FPath)
    (expected : String) : Bool :=
  match fs.findFile p with
  | none => false
  | some f => md5hex f.content == expected

/-- unpack_file: for a .bz2 or .gz suffix, decompress into the unpacked
directory under the stem name, then remove any previous canonical file of
that stem and copy the fresh output over it; any other suffix fails.  The
decompression codecs are the parameter decomp, keyed by suffix.  A missing
source or a copy from a path the unlink just removed surfaces as the
caught-exception failure of the source. -/
def unpackFile (decomp : String → Bytes → Bytes) (now : Nat)
    (unpackedDir canonicalDir : FPath) (compressedPath : FPath) (fs : FS) :
    Bool × FS :=
  let name := fileName compressedPath
  if isSupportedSuffix name then
    match fs.findFile compressedPath with
    | none => (false, fs)
    | some src =>
      let stem := stemOfName name
      let outPath := unpackedDir ++ [stem]
      let canonPath := canonicalDir ++ [stem]
      let fs1 := fs.writeFile outPath (decomp (suffixOfName name) src.content) now
      let fs2 := if fs1.existsF canonPath then fs1.unlink canonPath else fs1
      match fs2.findFile outPath with
      | none => (false, fs2)
      | some o => (true, fs2.writeFile canonPath o.content o.mtime)
  else (false, fs)

/-- cleanup_old_files, step 1-2: the non-hidden regular files below the
download directory, sorted newest first by modification time. -/
def cleanupSorted (cfg : Config) (fs : FS) : List FSFile :=
  List.insertionSort (fun a b : FSFile => b.mtime ≤ a.mtime)
    (fs.files.filter (fun f =>
      isUnder cfg.downloadDirectory f.path && !(isHiddenName (fileName f.path))))

/-- cleanup_old_files: the compressed group, in newest-first order. -/
def compressedGroup (cfg : Config) (fs : FS) : List FSFile :=
  (cleanupSorted cfg fs).filter (fun f => isSupportedSuffix (fileName f.path))

/-- cleanup_old_files: the unpacked group, in newest-first order — files
without a compression suffix whose parent is the unpacked directory. -/
def unpackedGroup (cfg : Config) (fs : FS) : List FSFile :=
  (cleanupSorted cfg fs).filter (fun f =>
    !(isSupportedSuffix (fileName f.path)) &&
      parentOf f.path == cfg.unpackedDirectory)

instance : IsTotal FSFile (fun a b : FSFile => b.mtime ≤ a.mtime) :=
  ⟨fun a b => Nat.le_total b.mtime a.mtime⟩

instance : IsTrans FSFile (fun a b : FSFile => b.mtime ≤ a.mtime) :=
  ⟨fun _ _ _ hab hbc => Nat.le_trans hbc hab⟩

/-- The compressed kind, as the cleanup pass classifies it: a non-hidden
file below the download directory with a .bz2 or .gz suffix. -/
def isManagedCompressed (cfg : Config) (f : FSFile) : Bool :=
  isUnder cfg.downloadDirectory f.path && !(isHiddenName (fileName f.path)) &&
    isSupportedSuffix (fileName f.path)

/-- The unpacked kind, as the cleanup pass classifies it: a non-hidden
file below the download directory without a compression suffix whose
parent is the unpacked directory. -/
def isManagedUnpacked (cfg : Config) (f : FSFile) : Bool :=
  isUnder cfg.downloadDirectory f.path && !(isHiddenName (fileName f.path)) &&
    !(isSupportedSuffix (fileName f.path)) &&
    parentOf f.path == cfg.unpackedDirectory

/-- cleanup_old_files: the paths unlinked — everything beyond index
keep_versions in each group. -/
def deletePaths (cfg : Config) (fs : FS) : List FPath :=
  ((compressedGroup cfg fs).drop cfg.keepVersions).map (fun f => f.path) ++
    ((unpackedGroup cfg fs).drop cfg.keepVersions).map (fun f => f.path)

/-- cleanup_old_files: a no-op when the download directory does not
exist; otherwise unlink every path of both over-count groups.  The
source has no age-based pass: max_age_days is never consulted. -/
def cleanupOldFiles (cfg : Config) (fs : FS) : FS :=
  if fs.dirs.contains cfg.downloadDirectory then
    { fs with files :=
        fs.files.filter (fun f => !((deletePaths cfg fs).contains f.path)) }
  else fs

/-- Per-cycle orchestrator state: the filesystem, the success and
download-attempt counters, the list the source names downloaded_files,
the unpacked counter and the trace of external calls. -/
structure SyncState where
  fs : FS
  successCount : Nat
  downloads : Nat
  downloadedFiles : List FPath
  unpackedCount : Nat
  events : List Event
deriving DecidableEq, Repr

/-- One descriptor of the download loop of sync: skip when a local file
of that name already has exactly the probed size, otherwise fetch into
the temp directory and rename onto the download directory only on
success. -/
def downloadStep (cfg : Config) (fetch : String → FetchOutcome) (now : Nat)
    (st : SyncState) (d : String × DumpDesc) : SyncState :=
  let filename := d.1
  let info := d.2
  let localPath := cfg.downloadDirectory ++ [filename]
  let tempPath := cfg.tempDirectory ++ [filename]
  let attempt : SyncState :=
    let r := fetch info.url
    let fsT := st.fs.writeFile tempPath r.body now
    if r.ok then
      { st with
        fs := fsT.rename tempPath localPath
        downloadedFiles := st.downloadedFiles ++ [localPath]
        successCount := st.successCount + 1
        downloads := st.downloads + 1
        events := st.events ++ [Event.fetchUrl info.url] }
    else
      { st with
        fs := fsT
        downloads := st.downloads + 1
        events := st.events ++ [Event.fetchUrl info.url] }
  match st.fs.statSize localPath with
  | some localSize =>
    if localSize = info.size then
      { st with
        downloadedFiles := st.downloadedFiles ++ [localPath]
        successCount := st.successCount + 1 }
    else attempt
  | none => attempt

/-- The download loop of sync over the catalog. -/
def downloadPhase (cfg : Config) (fetch : String → FetchOutcome) (now : Nat)
    (ds : List (String × DumpDesc)) (st : SyncState) : SyncState :=
  ds.foldl (downloadStep cfg fetch now) st

/-- One file of the unpack loop of sync: only .bz2 and .gz members of
downloaded_files are handed to unpack_file; each call is traced. -/
def unpackStep (decomp : String → Bytes → Bytes) (cfg : Config) (now : Nat)
    (st : SyncState) (p : FPath) : SyncState :=
  if isSupportedSuffix (fileName p) then
    let r := unpackFile decomp now cfg.unpackedDirectory cfg.canonicalDirectory p st.fs
    { st with
      fs := r.2
      unpackedCount := if r.1 then st.unpackedCount + 1 else st.unpackedCount
      events := st.events ++ [Event.unpackEv p] }
  else st

/-- The unpack loop of sync. -/
def unpackPhase (decomp : String → Bytes → Bytes) (cfg : Config) (now : Nat)
    (l : List FPath) (st : SyncState) : SyncState :=
  l.foldl (unpackStep decomp cfg now) st

/-- The four mkdir calls at the top of sync. -/
def makeDirs (cfg : Config) (fs : FS) : FS :=
  (((fs.mkdirp cfg.downloadDirectory).mkdirp cfg.tempDirectory).mkdirp
      cfg.unpackedDirectory).mkdirp cfg.canonicalDirectory

/-- State after the download loop of one cycle body. -/
def syncSt1 (cfg : Config) (dumpInfo : List (String × DumpDesc))
    (fetch : String → FetchOutcome) (now : Nat) (fs0 : FS) : SyncState :=
  downloadPhase cfg fetch now dumpInfo ⟨fs0, 0, 0, [], 0, [Event.resolveCatalog]⟩

/-- State after the optional unpack loop over downloaded_files. -/
def syncSt2 (cfg : Config) (dumpInfo : List (String × DumpDesc))
    (fetch : String → FetchOutcome) (decomp : String → Bytes → Bytes)
    (now : Nat) (fs0 : FS) : SyncState :=
  if cfg.unpackAfterDownload then
    unpackPhase decomp cfg now (syncSt1 cfg dumpInfo fetch now fs0).downloadedFiles
      (syncSt1 cfg dumpInfo fetch now fs0)
  else syncSt1 cfg dumpInfo fetch now fs0

/-- State after the optional cleanup. -/
def syncSt3 (cfg : Config) (dumpInfo : List (String × DumpDesc))
    (fetch : String → FetchOutcome) (decomp : String → Bytes → Bytes)
    (now : Nat) (fs0 : FS) : SyncState :=
  if cfg.cleanupAfterSync then
    { syncSt2 cfg dumpInfo fetch decomp now fs0 with
      fs := cleanupOldFiles cfg (syncSt2 cfg dumpInfo fetch decomp now fs0).fs }
  else syncSt2 cfg dumpInfo fetch decomp now fs0

/-- The body of sync past the gate and the empty-catalog check: the
download loop, the optional unpack loop, the optional cleanup, and the
success verdict success_count = total. -/
def syncRun (cfg : Config) (dumpInfo : List (String × DumpDesc))
    (fetch : String → FetchOutcome) (decomp : String → Bytes → Bytes)
    (now : Nat) (fs0 : FS) : Bool × SyncState :=
  ((syncSt3 cfg dumpInfo fetch decomp now fs0).successCount == dumpInfo.length,
    syncSt3 cfg dumpInfo fetch decomp now fs0)

/-- sync: resource gate, directory creation, catalog resolution (its
result dumpInfo is the input of the download loop; an empty mapping —
also the error case of get_dump_info — aborts the cycle), then the body
of the cycle. -/
def sync (cfg : Config) (availMem freeDisk : Nat)
    (dumpInfo : List (String × DumpDesc)) (fetch : String → FetchOutcome)
    (decomp : String → Bytes → Bytes) (now : Nat) (fs : FS) :
    Bool × SyncState :=
  if checkResources cfg availMem freeDisk then
    let fs0 := makeDirs cfg fs
    if dumpInfo.isEmpty then
      (false, ⟨fs0, 0, 0, [], 0, [Event.resolveCatalog]⟩)
    else
      syncRun cfg dumpInfo fetch decomp now fs0
  else
    (false, ⟨fs, 0, 0, [], 0, []⟩)

/-! Concrete instances used by witnesses and counterexamples. -/

/-- Identity decompression codecs (the codecs are external primitives). -/
def exDecomp : String → Bytes → Bytes := fun _ b => b

/-- A fetch that always succeeds with a one-byte body. -/
def exFetchOne : String → FetchOutcome := fun _ => ⟨true, [7]⟩

/-- A fetch that always fails, leaving one partial byte. -/
def exFetchFail : String → FetchOutcome := fun _ => ⟨false, [9]⟩

/-- A configuration with distinct directories, keep_versions 3,
max_age_days 30, cleanup off, unpacking on, thresholds zero. -/
def exCfg : Config :=
  ⟨["data"], ["temp"], ["unp"], ["can"], 3, 30, false, true, true, 0, 0⟩

/-- The same configuration with a one-megabyte memory threshold, so the
resource gate fails when no memory is available. -/
def exCfgMem : Config :=
  ⟨["data"], ["temp"], ["unp"], ["can"], 3, 30, false, true, true, 1, 0⟩

/-- A one-descriptor catalog whose size probe failed (size 0). -/
def exDump : List (String × DumpDesc) := [("f.gz", ⟨"u", 0, none⟩)]

/-- A one-descriptor catalog with a correct one-byte size. -/
def exDumpOne : List (String × DumpDesc) := [("g.gz", ⟨"u", 1, none⟩)]

/-- Five compressed files with distinct modification times. -/
def exFs5 : FS :=
  ⟨[⟨["data", "a.gz"], [1], 10⟩, ⟨["data", "b.gz"], [1], 20⟩,
    ⟨["data", "c.gz"], [1], 30⟩, ⟨["data", "d.gz"], [1], 40⟩,
    ⟨["data", "e.gz"], [1], 50⟩], [["data"]]⟩

/-- A single compressed file with modification time zero. -/
def exFsOld : FS := ⟨[⟨["data", "old.gz"], [1], 0⟩], [["data"]]⟩

/-- Four unpacked files in the unpacked directory, which (as in the
default layout) is not below the download directory. -/
def exFsUnp : FS :=
  ⟨[⟨["unp", "a"], [1], 1⟩, ⟨["unp", "b"], [1], 2⟩,
    ⟨["unp", "c"], [1], 3⟩, ⟨["unp", "d"], [1], 4⟩], [["data"], ["unp"]]⟩

/-- A zero-byte local compressed artifact, all directories existing. -/
def exFsZero : FS :=
  ⟨[⟨["data", "f.gz"], [], 5⟩], [["data"], ["temp"], ["unp"], ["can"]]⟩

/-! Basic lemmas about the filesystem operations. -/

theorem find?_filter_of_kept (l : List FSFile) (pr : FSFile → Bool) (q : FPath)
    (h : ∀ f, f.path = q → pr f = true) :
    (l.filter pr).find? (fun f => f.path == q) = l.find? (fun f => f.path == q) := by
  induction l with
  | nil => rfl
  | cons a l ih =>
    by_cases ha : a.path = q
    · have hpr := h a ha
      simp [List.filter_cons, hpr, List.find?, ha]
    · have hbe : (a.path == q) = false := by simp [ha]
      by_cases hpa : pr a = true
      · simp [List.filter_cons, hpa, List.find?, hbe, ih]
      · simp only [Bool.not_eq_true] at hpa
        simp [List.filter_cons, hpa, List.find?, hbe, ih]

theorem findFile_writeFile_self (fs : FS) (p : FPath) (c : Bytes) (t : Nat) :
    (fs.writeFile p c t).findFile p = some ⟨p, c, t⟩ := by
  simp [FS.writeFile, FS.findFile, List.find?]

theorem findFile_writeFile_ne (fs : FS) (p q : FPath) (c : Bytes) (t : Nat)
    (h : q ≠ p) : (fs.writeFile p c t).findFile q = fs.findFile q := by
  have hbe : (p == q) = false := by simpa using Ne.symm h
  simp only [FS.writeFile, FS.findFile, List.find?, hbe]
  exact find?_filter_of_kept _ _ _ (fun f hf => by simp [hf, h])

theorem findFile_unlink_ne (fs : FS) (p q : FPath) (h : q ≠ p) :
    (fs.unlink p).findFile q = fs.findFile q := by
  simp only [FS.unlink, FS.findFile]
  exact find?_filter_of_kept _ _ _ (fun f hf => by simp [hf, h])

theorem findFile_unlink_self (fs : FS) (p : FPath) :
    (fs.unlink p).findFile p = none := by
  simp only [FS.unlink, FS.findFile]
  rw [List.find?_eq_none]
  intro f hf
  simp only [List.mem_filter] at hf
  simpa using hf.2

theorem findFile_rename_ne (fs : FS) (p q r : FPath) (hp : r ≠ p) (hq : r ≠ q) :
    (fs.rename p q).findFile r = fs.findFile r := by
  unfold FS.rename
  cases hf : fs.findFile p with
  | none => rfl
  | some f =>
    have hbe : (q == r) = false := by simpa using Ne.symm hq
    simp only [FS.findFile, List.find?, hbe]
    exact find?_filter_of_kept _ _ _ (fun g hg => by simp [hg, hp, hq])

theorem findFile_rename_target (fs : FS) (p q : FPath) (f : FSFile)
    (h : fs.findFile p = some f) :
    (fs.rename p q).findFile q = some ⟨q, f.content, f.mtime⟩ := by
  unfold FS.rename
  rw [h]
  simp [FS.findFile, List.find?]

theorem dirs_writeFile (fs : FS) (p : FPath) (c : Bytes) (t : Nat) :
    (fs.writeFile p c t).dirs = fs.dirs := rfl

theorem dirs_unlink (fs : FS) (p : FPath) : (fs.unlink p).dirs = fs.dirs := rfl

theorem dirs_rename (fs : FS) (p q : FPath) : (fs.rename p q).dirs = fs.dirs := by
  unfold FS.rename
  cases fs.findFile p <;> rfl

theorem files_mkdirp (fs : FS) (d : FPath) : (fs.mkdirp d).files = fs.files := by
  unfold FS.mkdirp
  split <;> rfl

theorem files_makeDirs (cfg : Config) (fs : FS) :
    (makeDirs cfg fs).files = fs.files := by
  simp [makeDirs, files_mkdirp]

theorem findFile_makeDirs (cfg : Config) (fs : FS) (p : FPath) :
    (makeDirs cfg fs).findFile p = fs.findFile p := by
  simp [FS.findFile, files_makeDirs]

theorem statSize_makeDirs (cfg : Config) (fs : FS) (p : FPath) :
    (makeDirs cfg fs).statSize p = fs.statSize p := by
  simp [FS.statSize, findFile_makeDirs]

theorem mkdirp_contains (fs : FS) (d : FPath) : (fs.mkdirp d).dirs.contains d := by
  unfold FS.mkdirp
  split
  · assumption
  · simp

theorem contains_mkdirp_of_contains (fs : FS) (d e : FPath)
    (h : fs.dirs.contains e) : (fs.mkdirp d).dirs.contains e := by
  unfold FS.mkdirp
  split
  · exact h
  · simp only [List.contains_cons, Bool.or_eq_true]
    exact Or.inr h

theorem mkdirp_of_contains (fs : FS) (d : FPath) (h : fs.dirs.contains d) :
    fs.mkdirp d = fs := by
  simp only [FS.mkdirp, h, if_true]

theorem append_singleton_inj {α : Type} {l₁ l₂ : List α} {a b : α}
    (h : l₁ ++ [a] = l₂ ++ [b]) : l₁ = l₂ ∧ a = b := by
  have := List.append_inj' h rfl
  exact ⟨this.1, by simpa using this.2⟩

/-! Analysis of one descriptor of the download loop. -/

theorem downloadStep_skip (cfg : Config) (fetch : String → FetchOutcome)
    (now : Nat) (st : SyncState) (d : String × DumpDesc)
    (h : st.fs.statSize (cfg.downloadDirectory ++ [d.1]) = some d.2.size) :
    downloadStep cfg fetch now st d =
      { st with
        downloadedFiles := st.downloadedFiles ++ [cfg.downloadDirectory ++ [d.1]]
        successCount := st.successCount + 1 } := by
  simp only [downloadStep, h]
  simp

theorem downloadStep_fetch_ok (cfg : Config) (fetch : String → FetchOutcome)
    (now : Nat) (st : SyncState) (d : String × DumpDesc)
    (h : st.fs.statSize (cfg.downloadDirectory ++ [d.1]) ≠ some d.2.size)
    (hok : (fetch d.2.url).ok = true) :
    downloadStep cfg fetch now st d =
      { st with
        fs := (st.fs.writeFile (cfg.tempDirectory ++ [d.1]) (fetch d.2.url).body
            now).rename (cfg.tempDirectory ++ [d.1]) (cfg.downloadDirectory ++ [d.1])
        downloadedFiles := st.downloadedFiles ++ [cfg.downloadDirectory ++ [d.1]]
        successCount := st.successCount + 1
        downloads := st.downloads + 1
        events := st.events ++ [Event.fetchUrl d.2.url] } := by
  simp only [downloadStep]
  cases hs : st.fs.statSize (cfg.downloadDirectory ++ [d.1]) with
  | none => simp only [hok, if_true]
  | some a =>
    have ha : ¬(a = d.2.size) := fun e => h (by rw [hs, e])
    simp only [ha, if_false, hok, if_true]

theorem downloadStep_fetch_fail (cfg : Config) (fetch : String → FetchOutcome)
    (now : Nat) (st : SyncState) (d : String × DumpDesc)
    (h : st.fs.statSize (cfg.downloadDirectory ++ [d.1]) ≠ some d.2.size)
    (hbad : (fetch d.2.url).ok = false) :
    downloadStep cfg fetch now st d =
      { st with
        fs := st.fs.writeFile (cfg.tempDirectory ++ [d.1]) (fetch d.2.url).body now
        downloads := st.downloads + 1
        events := st.events ++ [Event.fetchUrl d.2.url] } := by
  simp only [downloadStep]
  cases hs : st.fs.statSize (cfg.downloadDirectory ++ [d.1]) with
  | none => simp only [hbad, Bool.false_eq_true, if_false]
  | some a =>
    have ha : ¬(a = d.2.size) := fun e => h (by rw [hs, e])
    simp only [ha, if_false, hbad, Bool.false_eq_true]

theorem downloadStep_succ_mono (cfg : Config) (fetch : String → FetchOutcome)
    (now : Nat) (st : SyncState) (d : String × DumpDesc) :
    st.successCount ≤ (downloadStep cfg fetch now st d).successCount ∧
      (downloadStep cfg fetch now st d).successCount ≤ st.successCount + 1 := by
  by_cases hs : st.fs.statSize (cfg.downloadDirectory ++ [d.1]) = some d.2.size
  · rw [downloadStep_skip cfg fetch now st d hs]
    simp
  · cases hok : (fetch d.2.url).ok with
    | true =>
      rw [downloadStep_fetch_ok cfg fetch now st d hs hok]
      simp
    | false =>
      rw [downloadStep_fetch_fail cfg fetch now st d hs hok]
      simp

theorem downloadStep_frame (cfg : Config) (fetch : String → FetchOutcome)
    (now : Nat) (st : SyncState) (d : String × DumpDesc) (q : FPath)
    (hq1 : q ≠ cfg.tempDirectory ++ [d.1])
    (hq2 : q ≠ cfg.downloadDirectory ++ [d.1]) :
    (downloadStep cfg fetch now st d).fs.findFile q = st.fs.findFile q := by
  by_cases hs : st.fs.statSize (cfg.downloadDirectory ++ [d.1]) = some d.2.size
  · rw [downloadStep_skip cfg fetch now st d hs]
  · cases hok : (fetch d.2.url).ok with
    | true =>
      rw [downloadStep_fetch_ok cfg fetch now st d hs hok]
      rw [findFile_rename_ne _ _ _ _ hq1 hq2, findFile_writeFile_ne _ _ _ _ _ hq1]
    | false =>
      rw [downloadStep_fetch_fail cfg fetch now st d hs hok]
      exact findFile_writeFile_ne _ _ _ _ _ hq1

theorem downloadStep_succ_size (cfg : Config) (fetch : String → FetchOutcome)
    (now : Nat) (st : SyncState) (d : String × DumpDesc)
    (hex : (fetch d.2.url).ok = true → (fetch d.2.url).body.length = d.2.size)
    (h : (downloadStep cfg fetch now st d).successCount = st.successCount + 1) :
    (downloadStep cfg fetch now st d).fs.statSize
      (cfg.downloadDirectory ++ [d.1]) = some d.2.size := by
  by_cases hs : st.fs.statSize (cfg.downloadDirectory ++ [d.1]) = some d.2.size
  · rw [downloadStep_skip cfg fetch now st d hs]
    exact hs
  · cases hok : (fetch d.2.url).ok with
    | true =>
      rw [downloadStep_fetch_ok cfg fetch now st d hs hok]
      have hfind :
          ((st.fs.writeFile (cfg.tempDirectory ++ [d.1]) (fetch d.2.url).body
            now).rename (cfg.tempDirectory ++ [d.1])
              (cfg.downloadDirectory ++ [d.1])).findFile
            (cfg.downloadDirectory ++ [d.1]) =
            some ⟨cfg.downloadDirectory ++ [d.1], (fetch d.2.url).body, now⟩ :=
        findFile_rename_target _ _ _ _ (findFile_writeFile_self _ _ _ _)
      simp [FS.statSize, hfind, hex hok]
    | false =>
      rw [downloadStep_fetch_fail cfg fetch now st d hs hok] at h
      simp at h

theorem downloadStep_dirs (cfg : Config) (fetch : String → FetchOutcome)
    (now : Nat) (st : SyncState) (d : String × DumpDesc) :
    (downloadStep cfg fetch now st d).fs.dirs = st.fs.dirs := by
  by_cases hs : st.fs.statSize (cfg.downloadDirectory ++ [d.1]) = some d.2.size
  · rw [downloadStep_skip cfg fetch now st d hs]
  · cases hok : (fetch d.2.url).ok with
    | true =>
      rw [downloadStep_fetch_ok cfg fetch now st d hs hok]
      rw [dirs_rename, dirs_writeFile]
    | false =>
      rw [downloadStep_fetch_fail cfg fetch now st d hs hok]
      rw [dirs_writeFile]

theorem downloadStep_no_verify (cfg : Config) (fetch : String → FetchOutcome)
    (now : Nat) (st : SyncState) (d : String × DumpDesc) :
    (downloadStep cfg fetch now st d).events.countP isVerifyEv =
      st.events.countP isVerifyEv := by
  by_cases hs : st.fs.statSize (cfg.downloadDirectory ++ [d.1]) = some d.2.size
  · rw [downloadStep_skip cfg fetch now st d hs]
  · cases hok : (fetch d.2.url).ok with
    | true =>
      rw [downloadStep_fetch_ok cfg fetch now st d hs hok]
      simp [List.countP_append, isVerifyEv]
    | false =>
      rw [downloadStep_fetch_fail cfg fetch now st d hs hok]
      simp [List.countP_append, isVerifyEv]

/-! The download loop: aggregated facts, by induction over descriptors. -/

theorem downloadPhase_cons (cfg : Config) (fetch : String → FetchOutcome)
    (now : Nat) (d : String × DumpDesc) (ds : List (String × DumpDesc))
    (st : SyncState) :
    downloadPhase cfg fetch now (d :: ds) st =
      downloadPhase cfg fetch now ds (downloadStep cfg fetch now st d) := rfl

theorem downloadPhase_succ_bounds (cfg : Config) (fetch : String → FetchOutcome)
    (now : Nat) (ds : List (String × DumpDesc)) (st : SyncState) :
    st.successCount ≤ (downloadPhase cfg fetch now ds st).successCount ∧
      (downloadPhase cfg fetch now ds st).successCount ≤
        st.successCount + ds.length := by
  induction ds generalizing st with
  | nil => simp [downloadPhase]
  | cons d ds ih =>
    rw [downloadPhase_cons]
    have h1 := downloadStep_succ_mono cfg fetch now st d
    have h2 := ih (downloadStep cfg fetch now st d)
    simp only [List.length_cons]
    omega

theorem downloadPhase_frame (cfg : Config) (fetch : String → FetchOutcome)
    (now : Nat) (ds : List (String × DumpDesc)) (st : SyncState) (q : FPath)
    (hq : ∀ d ∈ ds, q ≠ cfg.tempDirectory ++ [d.1] ∧
      q ≠ cfg.downloadDirectory ++ [d.1]) :
    (downloadPhase cfg fetch now ds st).fs.findFile q = st.fs.findFile q := by
  induction ds generalizing st with
  | nil => rfl
  | cons d ds ih =>
    rw [downloadPhase_cons]
    rw [ih _ (fun d' hd' => hq d' (List.mem_cons_of_mem d hd'))]
    exact downloadStep_frame cfg fetch now st d q
      (hq d (List.mem_cons_self d ds)).1 (hq d (List.mem_cons_self d ds)).2

theorem downloadPhase_dirs (cfg : Config) (fetch : String → FetchOutcome)
    (now : Nat) (ds : List (String × DumpDesc)) (st : SyncState) :
    (downloadPhase cfg fetch now ds st).fs.dirs = st.fs.dirs := by
  induction ds generalizing st with
  | nil => rfl
  | cons d ds ih =>
    rw [downloadPhase_cons, ih, downloadStep_dirs]

theorem downloadPhase_no_verify (cfg : Config) (fetch : String → FetchOutcome)
    (now : Nat) (ds : List (String × DumpDesc)) (st : SyncState) :
    (downloadPhase cfg fetch now ds st).events.countP isVerifyEv =
      st.events.countP isVerifyEv := by
  induction ds generalizing st with
  | nil => rfl
  | cons d ds ih =>
    rw [downloadPhase_cons, ih, downloadStep_no_verify]

theorem downloadPhase_all_sized (cfg : Config) (fetch : String → FetchOutcome)
    (now : Nat) (ds : List (String × DumpDesc)) (st : SyncState)
    (hTD : cfg.tempDirectory ≠ cfg.downloadDirectory)
    (hnodup : (ds.map Prod.fst).Nodup)
    (hex : ∀ d ∈ ds, (fetch d.2.url).ok = true →
      (fetch d.2.url).body.length = d.2.size)
    (hall : (downloadPhase cfg fetch now ds st).successCount =
      st.successCount + ds.length) :
    ∀ d ∈ ds, (downloadPhase cfg fetch now ds st).fs.statSize
      (cfg.downloadDirectory ++ [d.1]) = some d.2.size := by
  induction ds generalizing st with
  | nil => intro d hd; cases hd
  | cons d ds ih =>
    rw [downloadPhase_cons] at hall ⊢
    have hstep := downloadStep_succ_mono cfg fetch now st d
    have hrest := downloadPhase_succ_bounds cfg fetch now ds
      (downloadStep cfg fetch now st d)
    have hsucc1 : (downloadStep cfg fetch now st d).successCount =
        st.successCount + 1 := by
      simp only [List.length_cons] at hall
      omega
    have hsucc2 : (downloadPhase cfg fetch now ds
        (downloadStep cfg fetch now st d)).successCount =
        (downloadStep cfg fetch now st d).successCount + ds.length := by
      simp only [List.length_cons] at hall
      omega
    intro x hx
    rcases List.mem_cons.mp hx with hxd | hxds
    · subst hxd
      have hframe : ∀ d' ∈ ds,
          cfg.downloadDirectory ++ [x.1] ≠ cfg.tempDirectory ++ [d'.1] ∧
            cfg.downloadDirectory ++ [x.1] ≠ cfg.downloadDirectory ++ [d'.1] := by
        intro d' hd'
        constructor
        · intro he
          exact hTD ((append_singleton_inj he).1).symm
        · intro he
          have hne : x.1 ≠ d'.1 := by
            simp only [List.map_cons, List.nodup_cons] at hnodup
            intro he2
            exact hnodup.1 (he2 ▸ List.mem_map_of_mem Prod.fst hd')
          exact hne (append_singleton_inj he).2
      have hfr := downloadPhase_frame cfg fetch now ds
        (downloadStep cfg fetch now st x) (cfg.downloadDirectory ++ [x.1]) hframe
      have hsz := downloadStep_succ_size cfg fetch now st x
        (hex x (List.mem_cons_self x ds)) hsucc1
      simp only [FS.statSize] at hsz ⊢
      rw [hfr]
      exact hsz
    · exact ih (downloadStep cfg fetch now st d)
        (by simp only [List.map_cons, List.nodup_cons] at hnodup; exact hnodup.2)
        (fun d' hd' => hex d' (List.mem_cons_of_mem d hd')) hsucc2 x hxds

theorem downloadPhase_all_skip (cfg : Config) (fetch : String → FetchOutcome)
    (now : Nat) (ds : List (String × DumpDesc)) (st : SyncState)
    (hs : ∀ d ∈ ds, st.fs.statSize (cfg.downloadDirectory ++ [d.1]) =
      some d.2.size) :
    downloadPhase cfg fetch now ds st =
      { st with
        successCount := st.successCount + ds.length
        downloadedFiles := st.downloadedFiles ++
          ds.map (fun d => cfg.downloadDirectory ++ [d.1]) } := by
  induction ds generalizing st with
  | nil => simp [downloadPhase]
  | cons d ds ih =>
    rw [downloadPhase_cons,
      downloadStep_skip cfg fetch now st d (hs d (List.mem_cons_self d ds))]
    rw [ih { st with
        successCount := st.successCount + 1
        downloadedFiles := st.downloadedFiles ++ [cfg.downloadDirectory ++ [d.1]] }
      (fun d' hd' => hs d' (List.mem_cons_of_mem d hd'))]
    simp [List.append_assoc, Nat.add_assoc, Nat.add_comm, Nat.add_left_comm]

/-! Analysis of the unpacker and the unpack loop. -/

theorem unpackStep_supported (decomp : String → Bytes → Bytes) (cfg : Config)
    (now : Nat) (st : SyncState) (p : FPath)
    (h : isSupportedSuffix (fileName p) = true) :
    unpackStep decomp cfg now st p =
      { st with
        fs := (unpackFile decomp now cfg.unpackedDirectory
          cfg.canonicalDirectory p st.fs).2
        unpackedCount :=
          if (unpackFile decomp now cfg.unpackedDirectory
              cfg.canonicalDirectory p st.fs).1 then
            st.unpackedCount + 1
          else st.unpackedCount
        events := st.events ++ [Event.unpackEv p] } := by
  simp only [unpackStep, h, if_true]

theorem unpackStep_unsupported (decomp : String → Bytes → Bytes) (cfg : Config)
    (now : Nat) (st : SyncState) (p : FPath)
    (h : isSupportedSuffix (fileName p) = false) :
    unpackStep decomp cfg now st p = st := by
  simp only [unpackStep, h, Bool.false_eq_true, if_false]

theorem unpackFile_unsupported (decomp : String → Bytes → Bytes) (now : Nat)
    (unpackedDir canonicalDir : FPath) (p : FPath) (fs : FS)
    (h : isSupportedSuffix (fileName p) = false) :
    unpackFile decomp now unpackedDir canonicalDir p fs = (false, fs) := by
  simp only [unpackFile, h, Bool.false_eq_true, if_false]


theorem unpackFile_frame (decomp : String → Bytes → Bytes) (now : Nat)
    (unpackedDir canonicalDir : FPath) (p : FPath) (fs : FS) (q : FPath)
    (hq : ∀ s, q ≠ unpackedDir ++ [s] ∧ q ≠ canonicalDir ++ [s]) :
    (unpackFile decomp now unpackedDir canonicalDir p fs).2.findFile q =
      fs.findFile q := by
  have hqo := (hq (stemOfName (fileName p))).1
  have hqc := (hq (stemOfName (fileName p))).2
  simp only [unpackFile]
  split
  · cases hfp : fs.findFile p with
    | none => rfl
    | some src =>
      dsimp only
      split
      · dsimp only
        split
        · rw [findFile_unlink_ne _ _ _ hqc, findFile_writeFile_ne _ _ _ _ _ hqo]
        · rw [findFile_writeFile_ne _ _ _ _ _ hqo]
      · dsimp only
        rw [findFile_writeFile_ne _ _ _ _ _ hqc]
        split
        · rw [findFile_unlink_ne _ _ _ hqc, findFile_writeFile_ne _ _ _ _ _ hqo]
        · rw [findFile_writeFile_ne _ _ _ _ _ hqo]
  · rfl

theorem unpackFile_dirs (decomp : String → Bytes → Bytes) (now : Nat)
    (unpackedDir canonicalDir : FPath) (p : FPath) (fs : FS) :
    (unpackFile decomp now unpackedDir canonicalDir p fs).2.dirs = fs.dirs := by
  simp only [unpackFile]
  split
  · cases hfp : fs.findFile p with
    | none => rfl
    | some src =>
      dsimp only
      split
      · dsimp only
        split
        · rw [dirs_unlink, dirs_writeFile]
        · rw [dirs_writeFile]
      · dsimp only
        rw [dirs_writeFile]
        split
        · rw [dirs_unlink, dirs_writeFile]
        · rw [dirs_writeFile]
  · rfl

theorem countP_writeFile_self (fs : FS) (p : FPath) (c : Bytes) (t : Nat) :
    ((fs.writeFile p c t).files.countP (fun f => f.path == p)) = 1 := by
  simp only [FS.writeFile]
  rw [List.countP_cons_of_pos (fun f : FSFile => f.path == p) _ (by simp)]
  have hz : (fs.files.filter (fun f => !(f.path == p))).countP
      (fun f => f.path == p) = 0 := by
    rw [List.countP_eq_zero]
    intro f hf
    simpa using (List.mem_filter.mp hf).2
  omega

theorem unpackFile_success_canonical (decomp : String → Bytes → Bytes) (now : Nat)
    (unpackedDir canonicalDir : FPath) (p : FPath) (fs : FS)
    (h : (unpackFile decomp now unpackedDir canonicalDir p fs).1 = true) :
    ∃ src, fs.findFile p = some src ∧
      ((unpackFile decomp now unpackedDir canonicalDir p fs).2.files.countP
        (fun f => f.path == canonicalDir ++ [stemOfName (fileName p)])) = 1 ∧
      ((unpackFile decomp now unpackedDir canonicalDir p fs).2.findFile
          (canonicalDir ++ [stemOfName (fileName p)])).map FSFile.content =
        some (decomp (suffixOfName (fileName p)) src.content) := by
  by_cases hsup : isSupportedSuffix (fileName p) = true
  · simp only [unpackFile, hsup, if_true] at h ⊢
    cases hfp : fs.findFile p with
    | none => rw [hfp] at h; exact absurd h (by simp)
    | some src =>
      rw [hfp] at h
      dsimp only at h ⊢
      refine ⟨src, rfl, ?_⟩
      by_cases hex : ((fs.writeFile (unpackedDir ++ [stemOfName (fileName p)])
          (decomp (suffixOfName (fileName p)) src.content) now).existsF
            (canonicalDir ++ [stemOfName (fileName p)])) = true
      · rw [if_pos hex] at h ⊢
        by_cases hoc : canonicalDir ++ [stemOfName (fileName p)] =
            unpackedDir ++ [stemOfName (fileName p)]
        · rw [← hoc, findFile_unlink_self] at h
          exact absurd h (by simp)
        · have hfo : ((fs.writeFile (unpackedDir ++ [stemOfName (fileName p)])
              (decomp (suffixOfName (fileName p)) src.content) now).unlink
                (canonicalDir ++ [stemOfName (fileName p)])).findFile
              (unpackedDir ++ [stemOfName (fileName p)]) =
              some ⟨unpackedDir ++ [stemOfName (fileName p)],
                decomp (suffixOfName (fileName p)) src.content, now⟩ := by
            rw [findFile_unlink_ne _ _ _ (fun e => hoc e.symm)]
            exact findFile_writeFile_self _ _ _ _
          rw [hfo] at h ⊢
          dsimp only at h ⊢
          exact ⟨countP_writeFile_self _ _ _ _, by rw [findFile_writeFile_self]; rfl⟩
      · rw [if_neg hex] at h ⊢
        have hfo : ((fs.writeFile (unpackedDir ++ [stemOfName (fileName p)])
            (decomp (suffixOfName (fileName p)) src.content) now)).findFile
            (unpackedDir ++ [stemOfName (fileName p)]) =
            some ⟨unpackedDir ++ [stemOfName (fileName p)],
              decomp (suffixOfName (fileName p)) src.content, now⟩ :=
          findFile_writeFile_self _ _ _ _
        rw [hfo] at h ⊢
        dsimp only at h ⊢
        exact ⟨countP_writeFile_self _ _ _ _, by rw [findFile_writeFile_self]; rfl⟩
  · rw [unpackFile_unsupported _ _ _ _ _ _ (by simpa using hsup)] at h
    exact absurd h (by simp)

theorem unpackStep_counters (decomp : String → Bytes → Bytes) (cfg : Config)
    (now : Nat) (st : SyncState) (p : FPath) :
    (unpackStep decomp cfg now st p).successCount = st.successCount ∧
      (unpackStep decomp cfg now st p).downloads = st.downloads ∧
      (unpackStep decomp cfg now st p).downloadedFiles = st.downloadedFiles := by
  unfold unpackStep
  split
  · exact ⟨rfl, rfl, rfl⟩
  · exact ⟨rfl, rfl, rfl⟩

theorem unpackStep_frame (decomp : String → Bytes → Bytes) (cfg : Config)
    (now : Nat) (st : SyncState) (p : FPath) (q : FPath)
    (hq : ∀ s, q ≠ cfg.unpackedDirectory ++ [s] ∧
      q ≠ cfg.canonicalDirectory ++ [s]) :
    (unpackStep decomp cfg now st p).fs.findFile q = st.fs.findFile q := by
  unfold unpackStep
  split
  · exact unpackFile_frame _ _ _ _ _ _ _ hq
  · rfl

theorem unpackStep_dirs (decomp : String → Bytes → Bytes) (cfg : Config)
    (now : Nat) (st : SyncState) (p : FPath) :
    (unpackStep decomp cfg now st p).fs.dirs = st.fs.dirs := by
  unfold unpackStep
  split
  · exact unpackFile_dirs _ _ _ _ _ _
  · rfl

theorem unpackStep_no_verify (decomp : String → Bytes → Bytes) (cfg : Config)
    (now : Nat) (st : SyncState) (p : FPath) :
    (unpackStep decomp cfg now st p).events.countP isVerifyEv =
      st.events.countP isVerifyEv := by
  unfold unpackStep
  split
  · simp [List.countP_append, isVerifyEv]
  · rfl

theorem unpackPhase_cons (decomp : String → Bytes → Bytes) (cfg : Config)
    (now : Nat) (p : FPath) (l : List FPath) (st : SyncState) :
    unpackPhase decomp cfg now (p :: l) st =
      unpackPhase decomp cfg now l (unpackStep decomp cfg now st p) := rfl

theorem unpackPhase_counters (decomp : String → Bytes → Bytes) (cfg : Config)
    (now : Nat) (l : List FPath) (st : SyncState) :
    (unpackPhase decomp cfg now l st).successCount = st.successCount ∧
      (unpackPhase decomp cfg now l st).downloads = st.downloads ∧
      (unpackPhase decomp cfg now l st).downloadedFiles = st.downloadedFiles := by
  induction l generalizing st with
  | nil => exact ⟨rfl, rfl, rfl⟩
  | cons p l ih =>
    rw [unpackPhase_cons]
    have h1 := unpackStep_counters decomp cfg now st p
    have h2 := ih (unpackStep decomp cfg now st p)
    exact ⟨h2.1.trans h1.1, h2.2.1.trans h1.2.1, h2.2.2.trans h1.2.2⟩

theorem unpackPhase_frame (decomp : String → Bytes → Bytes) (cfg : Config)
    (now : Nat) (l : List FPath) (st : SyncState) (q : FPath)
    (hq : ∀ s, q ≠ cfg.unpackedDirectory ++ [s] ∧
      q ≠ cfg.canonicalDirectory ++ [s]) :
    (unpackPhase decomp cfg now l st).fs.findFile q = st.fs.findFile q := by
  induction l generalizing st with
  | nil => rfl
  | cons p l ih =>
    rw [unpackPhase_cons]
    rw [ih (unpackStep decomp cfg now st p)]
    exact unpackStep_frame decomp cfg now st p q hq

theorem unpackPhase_dirs (decomp : String → Bytes → Bytes) (cfg : Config)
    (now : Nat) (l : List FPath) (st : SyncState) :
    (unpackPhase decomp cfg now l st).fs.dirs = st.fs.dirs := by
  induction l generalizing st with
  | nil => rfl
  | cons p l ih =>
    rw [unpackPhase_cons, ih, unpackStep_dirs]

theorem unpackPhase_no_verify (decomp : String → Bytes → Bytes) (cfg : Config)
    (now : Nat) (l : List FPath) (st : SyncState) :
    (unpackPhase decomp cfg now l st).events.countP isVerifyEv =
      st.events.countP isVerifyEv := by
  induction l generalizing st with
  | nil => rfl
  | cons p l ih =>
    rw [unpackPhase_cons, ih, unpackStep_no_verify]

theorem unpackPhase_events (decomp : String → Bytes → Bytes) (cfg : Config)
    (now : Nat) (l : List FPath) (st : SyncState) :
    (unpackPhase decomp cfg now l st).events =
      st.events ++
        (l.filter (fun q => isSupportedSuffix (fileName q))).map Event.unpackEv := by
  induction l generalizing st with
  | nil => simp [unpackPhase]
  | cons p l ih =>
    rw [unpackPhase_cons]
    cases hsup : isSupportedSuffix (fileName p) with
    | true =>
      rw [ih (unpackStep decomp cfg now st p),
        unpackStep_supported decomp cfg now st p hsup]
      simp [List.filter_cons, hsup]
    | false =>
      rw [ih (unpackStep decomp cfg now st p),
        unpackStep_unsupported decomp cfg now st p hsup]
      simp [List.filter_cons, hsup]

/-! Unfolding lemmas for sync. -/

theorem sync_gate_fail (cfg : Config) (availMem freeDisk : Nat)
    (dumpInfo : List (String × DumpDesc)) (fetch : String → FetchOutcome)
    (decomp : String → Bytes → Bytes) (now : Nat) (fs : FS)
    (h : checkResources cfg availMem freeDisk = false) :
    sync cfg availMem freeDisk dumpInfo fetch decomp now fs =
      (false, ⟨fs, 0, 0, [], 0, []⟩) := by
  simp only [sync, h, Bool.false_eq_true, if_false]

theorem sync_empty_catalog (cfg : Config) (availMem freeDisk : Nat)
    (fetch : String → FetchOutcome) (decomp : String → Bytes → Bytes)
    (now : Nat) (fs : FS)
    (h : checkResources cfg availMem freeDisk = true) :
    sync cfg availMem freeDisk [] fetch decomp now fs =
      (false, ⟨makeDirs cfg fs, 0, 0, [], 0, [Event.resolveCatalog]⟩) := by
  simp only [sync, h, if_true, List.isEmpty_nil]

theorem sync_nonempty (cfg : Config) (availMem freeDisk : Nat)
    (dumpInfo : List (String × DumpDesc)) (fetch : String → FetchOutcome)
    (decomp : String → Bytes → Bytes) (now : Nat) (fs : FS)
    (h : checkResources cfg availMem freeDisk = true)
    (hne : dumpInfo.isEmpty = false) :
    sync cfg availMem freeDisk dumpInfo fetch decomp now fs =
      syncRun cfg dumpInfo fetch decomp now (makeDirs cfg fs) := by
  simp only [sync, h, if_true, hne, Bool.false_eq_true, if_false]

theorem syncRun_fst (cfg : Config) (dumpInfo : List (String × DumpDesc))
    (fetch : String → FetchOutcome) (decomp : String → Bytes → Bytes)
    (now : Nat) (fs0 : FS) :
    (syncRun cfg dumpInfo fetch decomp now fs0).1 =
      ((syncRun cfg dumpInfo fetch decomp now fs0).2.successCount ==
        dumpInfo.length) := rfl

theorem syncSt2_counters (cfg : Config) (dumpInfo : List (String × DumpDesc))
    (fetch : String → FetchOutcome) (decomp : String → Bytes → Bytes)
    (now : Nat) (fs0 : FS) :
    (syncSt2 cfg dumpInfo fetch decomp now fs0).successCount =
        (syncSt1 cfg dumpInfo fetch now fs0).successCount ∧
      (syncSt2 cfg dumpInfo fetch decomp now fs0).downloads =
        (syncSt1 cfg dumpInfo fetch now fs0).downloads ∧
      (syncSt2 cfg dumpInfo fetch decomp now fs0).downloadedFiles =
        (syncSt1 cfg dumpInfo fetch now fs0).downloadedFiles := by
  unfold syncSt2
  split
  · exact unpackPhase_counters decomp cfg now
      (syncSt1 cfg dumpInfo fetch now fs0).downloadedFiles
      (syncSt1 cfg dumpInfo fetch now fs0)
  · exact ⟨rfl, rfl, rfl⟩

theorem syncSt3_of_no_cleanup (cfg : Config)
    (dumpInfo : List (String × DumpDesc)) (fetch : String → FetchOutcome)
    (decomp : String → Bytes → Bytes) (now : Nat) (fs0 : FS)
    (hclean : cfg.cleanupAfterSync = false) :
    syncSt3 cfg dumpInfo fetch decomp now fs0 =
      syncSt2 cfg dumpInfo fetch decomp now fs0 := by
  unfold syncSt3
  simp [hclean]

theorem syncRun_success_sizes (cfg : Config)
    (dumpInfo : List (String × DumpDesc)) (fetch : String → FetchOutcome)
    (decomp : String → Bytes → Bytes) (now : Nat) (fs0 : FS)
    (hTD : cfg.tempDirectory ≠ cfg.downloadDirectory)
    (hUD : cfg.unpackedDirectory ≠ cfg.downloadDirectory)
    (hCD : cfg.canonicalDirectory ≠ cfg.downloadDirectory)
    (hclean : cfg.cleanupAfterSync = false)
    (hnodup : (dumpInfo.map Prod.fst).Nodup)
    (hex : ∀ d ∈ dumpInfo, (fetch d.2.url).ok = true →
      (fetch d.2.url).body.length = d.2.size)
    (h : (syncRun cfg dumpInfo fetch decomp now fs0).1 = true) :
    ∀ d ∈ dumpInfo, (syncRun cfg dumpInfo fetch decomp now fs0).2.fs.statSize
      (cfg.downloadDirectory ++ [d.1]) = some d.2.size := by
  rw [syncRun_fst] at h
  have hsucc : (syncSt3 cfg dumpInfo fetch decomp now fs0).successCount =
      dumpInfo.length := by
    have : (syncRun cfg dumpInfo fetch decomp now fs0).2 =
        syncSt3 cfg dumpInfo fetch decomp now fs0 := rfl
    rw [this] at h
    exact beq_iff_eq.mp h
  rw [syncSt3_of_no_cleanup cfg dumpInfo fetch decomp now fs0 hclean] at hsucc
  have hs1 : (syncSt1 cfg dumpInfo fetch now fs0).successCount =
      dumpInfo.length := by
    rw [← (syncSt2_counters cfg dumpInfo fetch decomp now fs0).1]
    exact hsucc
  have hs1' : (downloadPhase cfg fetch now dumpInfo
      ⟨fs0, 0, 0, [], 0, [Event.resolveCatalog]⟩).successCount =
      (⟨fs0, 0, 0, [], 0, [Event.resolveCatalog]⟩ : SyncState).successCount +
        dumpInfo.length := by
    simpa [syncSt1] using hs1
  intro d hd
  have hsz := downloadPhase_all_sized cfg fetch now dumpInfo
    ⟨fs0, 0, 0, [], 0, [Event.resolveCatalog]⟩ hTD hnodup hex hs1' d hd
  have hgoal2 : (syncRun cfg dumpInfo fetch decomp now fs0).2 =
      syncSt2 cfg dumpInfo fetch decomp now fs0 := by
    have : (syncRun cfg dumpInfo fetch decomp now fs0).2 =
        syncSt3 cfg dumpInfo fetch decomp now fs0 := rfl
    rw [this, syncSt3_of_no_cleanup cfg dumpInfo fetch decomp now fs0 hclean]
  rw [hgoal2]
  have hframe : ∀ s : String,
      cfg.downloadDirectory ++ [d.1] ≠ cfg.unpackedDirectory ++ [s] ∧
        cfg.downloadDirectory ++ [d.1] ≠ cfg.canonicalDirectory ++ [s] := by
    intro s
    constructor
    · intro he
      exact hUD ((append_singleton_inj he).1).symm
    · intro he
      exact hCD ((append_singleton_inj he).1).symm
  unfold syncSt2
  split
  · have hfr := unpackPhase_frame decomp cfg now
      (syncSt1 cfg dumpInfo fetch now fs0).downloadedFiles
      (syncSt1 cfg dumpInfo fetch now fs0)
      (cfg.downloadDirectory ++ [d.1]) hframe
    simp only [FS.statSize, hfr]
    simpa [FS.statSize, syncSt1] using hsz
  · simpa [FS.statSize, syncSt1] using hsz

theorem syncRun_all_skip (cfg : Config) (dumpInfo : List (String × DumpDesc))
    (fetch : String → FetchOutcome) (decomp : String → Bytes → Bytes)
    (now : Nat) (fs0 : FS)
    (hclean : cfg.cleanupAfterSync = false)
    (hs : ∀ d ∈ dumpInfo, fs0.statSize (cfg.downloadDirectory ++ [d.1]) =
      some d.2.size) :
    (syncRun cfg dumpInfo fetch decomp now fs0).2.downloads = 0 ∧
      (syncRun cfg dumpInfo fetch decomp now fs0).1 = true := by
  have hst1 : syncSt1 cfg dumpInfo fetch now fs0 =
      { fs := fs0, successCount := dumpInfo.length, downloads := 0,
        downloadedFiles := dumpInfo.map (fun d => cfg.downloadDirectory ++ [d.1]),
        unpackedCount := 0, events := [Event.resolveCatalog] } := by
    unfold syncSt1
    rw [downloadPhase_all_skip cfg fetch now dumpInfo
      ⟨fs0, 0, 0, [], 0, [Event.resolveCatalog]⟩ (fun d hd => hs d hd)]
    simp
  have hc := syncSt2_counters cfg dumpInfo fetch decomp now fs0
  have h2 : (syncRun cfg dumpInfo fetch decomp now fs0).2 =
      syncSt2 cfg dumpInfo fetch decomp now fs0 := by
    have he : (syncRun cfg dumpInfo fetch decomp now fs0).2 =
        syncSt3 cfg dumpInfo fetch decomp now fs0 := rfl
    rw [he, syncSt3_of_no_cleanup cfg dumpInfo fetch decomp now fs0 hclean]
  constructor
  · rw [h2, hc.2.1, hst1]
  · rw [syncRun_fst, h2, hc.1, hst1]
    simp

/-! The retention pass: membership, order and counting lemmas. -/

theorem mem_cleanupSorted (cfg : Config) (fs : FS) (f : FSFile) :
    f ∈ cleanupSorted cfg fs ↔
      f ∈ fs.files ∧ (isUnder cfg.downloadDirectory f.path &&
        !(isHiddenName (fileName f.path))) = true := by
  unfold cleanupSorted
  rw [List.Perm.mem_iff (List.perm_insertionSort _ _)]
  simp [List.mem_filter]

theorem mem_compressedGroup (cfg : Config) (fs : FS) (f : FSFile) :
    f ∈ compressedGroup cfg fs ↔
      f ∈ fs.files ∧ isManagedCompressed cfg f = true := by
  unfold compressedGroup isManagedCompressed
  rw [List.mem_filter, mem_cleanupSorted]
  constructor
  · rintro ⟨⟨h1, h2⟩, h3⟩
    simp only [Bool.and_eq_true] at h2 ⊢
    exact ⟨h1, ⟨h2, h3⟩⟩
  · rintro ⟨h1, h2⟩
    simp only [Bool.and_eq_true] at h2 ⊢
    exact ⟨⟨h1, h2.1⟩, h2.2⟩

theorem mem_unpackedGroup (cfg : Config) (fs : FS) (f : FSFile) :
    f ∈ unpackedGroup cfg fs ↔
      f ∈ fs.files ∧ isManagedUnpacked cfg f = true := by
  unfold unpackedGroup isManagedUnpacked
  rw [List.mem_filter, mem_cleanupSorted]
  constructor
  · rintro ⟨⟨h1, h2⟩, h3⟩
    simp only [Bool.and_eq_true] at h2 h3 ⊢
    exact ⟨h1, ⟨⟨h2, h3.1⟩, h3.2⟩⟩
  · rintro ⟨h1, h2⟩
    simp only [Bool.and_eq_true] at h2 ⊢
    exact ⟨⟨h1, h2.1.1⟩, ⟨h2.1.2, h2.2⟩⟩

theorem pairwise_compressedGroup (cfg : Config) (fs : FS) :
    List.Pairwise (fun a b : FSFile => b.mtime ≤ a.mtime)
      (compressedGroup cfg fs) := by
  unfold compressedGroup
  exact List.Pairwise.filter _
    (List.sorted_insertionSort (fun a b : FSFile => b.mtime ≤ a.mtime) _)

theorem cleanup_result_files (cfg : Config) (fs : FS)
    (hdir : fs.dirs.contains cfg.downloadDirectory = true) :
    (cleanupOldFiles cfg fs).files =
      fs.files.filter (fun f => !((deletePaths cfg fs).contains f.path)) := by
  unfold cleanupOldFiles
  rw [if_pos hdir]

theorem countP_cleanup_le (cfg : Config) (fs : FS) (kpred : FSFile → Bool)
    (group : List FSFile)
    (hnd : (fs.files.map FSFile.path).Nodup)
    (hdir : fs.dirs.contains cfg.downloadDirectory = true)
    (hmem : ∀ f ∈ fs.files, kpred f = true → f ∈ group)
    (hdel : ∀ f ∈ group.drop cfg.keepVersions,
      f.path ∈ deletePaths cfg fs) :
    ((cleanupOldFiles cfg fs).files.countP kpred) ≤ cfg.keepVersions := by
  rw [cleanup_result_files cfg fs hdir, List.countP_eq_length_filter]
  have hndl : (fs.files.filter
      (fun f => !((deletePaths cfg fs).contains f.path))).filter kpred
        |>.Nodup :=
    ((List.Nodup.of_map _ hnd).filter _).filter _
  have hsub : ((fs.files.filter
      (fun f => !((deletePaths cfg fs).contains f.path))).filter kpred) ⊆
      group.take cfg.keepVersions := by
    intro x hx
    have hx1 := List.mem_filter.mp hx
    have hx2 := List.mem_filter.mp hx1.1
    have hxg : x ∈ group := hmem x hx2.1 hx1.2
    rw [← List.take_append_drop cfg.keepVersions group] at hxg
    rcases List.mem_append.mp hxg with htake | hdrop
    · exact htake
    · exfalso
      have := hdel x hdrop
      have hcon : ((deletePaths cfg fs).contains x.path) = true :=
        List.elem_iff.mpr this
      rw [hcon] at hx2
      simpa using hx2.2
  calc ((fs.files.filter _).filter kpred).length
      ≤ (group.take cfg.keepVersions).length := (hndl.subperm hsub).length_le
    _ ≤ cfg.keepVersions := List.length_take_le _ _

theorem deleted_path_of_not_surviving (cfg : Config) (fs : FS) (f : FSFile)
    (hdir : fs.dirs.contains cfg.downloadDirectory = true)
    (hf : f ∈ fs.files) (hfdel : f ∉ (cleanupOldFiles cfg fs).files) :
    f.path ∈ deletePaths cfg fs := by
  rw [cleanup_result_files cfg fs hdir] at hfdel
  by_cases hc : ((deletePaths cfg fs).contains f.path) = true
  · exact List.elem_iff.mp hc
  · exfalso
    exact hfdel (List.mem_filter.mpr ⟨hf, by simpa using hc⟩)

theorem cleanup_deleted_older (cfg : Config) (fs : FS)
    (hnd : (fs.files.map FSFile.path).Nodup)
    (hdir : fs.dirs.contains cfg.downloadDirectory = true)
    (f g : FSFile) (hf : f ∈ fs.files)
    (hfk : isManagedCompressed cfg f = true)
    (hfdel : f ∉ (cleanupOldFiles cfg fs).files)
    (hg : g ∈ (cleanupOldFiles cfg fs).files)
    (hgk : isManagedCompressed cfg g = true) :
    f.mtime ≤ g.mtime := by
  have hpath := deleted_path_of_not_surviving cfg fs f hdir hf hfdel
  have hfdrop : f ∈ (compressedGroup cfg fs).drop cfg.keepVersions := by
    unfold deletePaths at hpath
    rcases List.mem_append.mp hpath with hC | hU
    · rcases List.mem_map.mp hC with ⟨fc, hfc, hfcp⟩
      have hfcin : fc ∈ fs.files :=
        ((mem_compressedGroup cfg fs fc).mp
          (List.drop_subset _ _ hfc)).1
      have : fc = f := List.inj_on_of_nodup_map hnd hfcin hf hfcp
      rwa [← this]
    · exfalso
      rcases List.mem_map.mp hU with ⟨fu, hfu, hfup⟩
      have hfu' := (mem_unpackedGroup cfg fs fu).mp (List.drop_subset _ _ hfu)
      have : fu = f := List.inj_on_of_nodup_map hnd hfu'.1 hf hfup
      rw [this] at hfu'
      unfold isManagedCompressed at hfk
      unfold isManagedUnpacked at hfu'
      simp only [Bool.and_eq_true] at hfk hfu'
      rw [hfk.2] at hfu'
      simpa using hfu'.2.1.2
  have hgsurv : g ∈ fs.files ∧
      ((deletePaths cfg fs).contains g.path) = false := by
    rw [cleanup_result_files cfg fs hdir] at hg
    have := List.mem_filter.mp hg
    exact ⟨this.1, by simpa using this.2⟩
  have hgC : g ∈ compressedGroup cfg fs :=
    (mem_compressedGroup cfg fs g).mpr ⟨hgsurv.1, hgk⟩
  have hgtake : g ∈ (compressedGroup cfg fs).take cfg.keepVersions := by
    rw [← List.take_append_drop cfg.keepVersions (compressedGroup cfg fs)] at hgC
    rcases List.mem_append.mp hgC with h | h
    · exact h
    · exfalso
      have : g.path ∈ deletePaths cfg fs := by
        unfold deletePaths
        exact List.mem_append.mpr (Or.inl (List.mem_map_of_mem _ h))
      have hT : ((deletePaths cfg fs).contains g.path) = true :=
        List.elem_iff.mpr this
      rw [hgsurv.2] at hT
      exact Bool.false_ne_true hT
  have hpw := pairwise_compressedGroup cfg fs
  rw [← List.take_append_drop cfg.keepVersions (compressedGroup cfg fs)] at hpw
  exact (List.pairwise_append.mp hpw).2.2 g hgtake f hfdrop

theorem pairwise_unpackedGroup (cfg : Config) (fs : FS) :
    List.Pairwise (fun a b : FSFile => b.mtime ≤ a.mtime)
      (unpackedGroup cfg fs) := by
  unfold unpackedGroup
  exact List.Pairwise.filter _
    (List.sorted_insertionSort (fun a b : FSFile => b.mtime ≤ a.mtime) _)

theorem cleanup_deleted_older_unpacked (cfg : Config) (fs : FS)
    (hnd : (fs.files.map FSFile.path).Nodup)
    (hdir : fs.dirs.contains cfg.downloadDirectory = true)
    (f g : FSFile) (hf : f ∈ fs.files)
    (hfk : isManagedUnpacked cfg f = true)
    (hfdel : f ∉ (cleanupOldFiles cfg fs).files)
    (hg : g ∈ (cleanupOldFiles cfg fs).files)
    (hgk : isManagedUnpacked cfg g = true) :
    f.mtime ≤ g.mtime := by
  have hpath := deleted_path_of_not_surviving cfg fs f hdir hf hfdel
  have hfdrop : f ∈ (unpackedGroup cfg fs).drop cfg.keepVersions := by
    unfold deletePaths at hpath
    rcases List.mem_append.mp hpath with hC | hU
    · exfalso
      rcases List.mem_map.mp hC with ⟨fc, hfc, hfcp⟩
      have hfc' := (mem_compressedGroup cfg fs fc).mp (List.drop_subset _ _ hfc)
      have : fc = f := List.inj_on_of_nodup_map hnd hfc'.1 hf hfcp
      rw [this] at hfc'
      unfold isManagedCompressed at hfc'
      unfold isManagedUnpacked at hfk
      simp only [Bool.and_eq_true] at hfc' hfk
      rw [hfc'.2.2] at hfk
      simpa using hfk.1.2
    · rcases List.mem_map.mp hU with ⟨fu, hfu, hfup⟩
      have hfuin : fu ∈ fs.files :=
        ((mem_unpackedGroup cfg fs fu).mp (List.drop_subset _ _ hfu)).1
      have : fu = f := List.inj_on_of_nodup_map hnd hfuin hf hfup
      rwa [← this]
  have hgsurv : g ∈ fs.files ∧
      ((deletePaths cfg fs).contains g.path) = false := by
    rw [cleanup_result_files cfg fs hdir] at hg
    have := List.mem_filter.mp hg
    exact ⟨this.1, by simpa using this.2⟩
  have hgU : g ∈ unpackedGroup cfg fs :=
    (mem_unpackedGroup cfg fs g).mpr ⟨hgsurv.1, hgk⟩
  have hgtake : g ∈ (unpackedGroup cfg fs).take cfg.keepVersions := by
    rw [← List.take_append_drop cfg.keepVersions (unpackedGroup cfg fs)] at hgU
    rcases List.mem_append.mp hgU with h | h
    · exact h
    · exfalso
      have : g.path ∈ deletePaths cfg fs := by
        unfold deletePaths
        exact List.mem_append.mpr (Or.inr (List.mem_map_of_mem _ h))
      have hT : ((deletePaths cfg fs).contains g.path) = true :=
        List.elem_iff.mpr this
      rw [hgsurv.2] at hT
      exact Bool.false_ne_true hT
  have hpw := pairwise_unpackedGroup cfg fs
  rw [← List.take_append_drop cfg.keepVersions (unpackedGroup cfg fs)] at hpw
  exact (List.pairwise_append.mp hpw).2.2 g hgtake f hfdrop

theorem fileName_append_singleton (p : FPath) (s : String) :
    fileName (p ++ [s]) = s := by
  unfold fileName
  rw [List.getLast?_concat]
  rfl

theorem unpackFile_success_of (decomp : String → Bytes → Bytes) (now : Nat)
    (unpackedDir canonicalDir : FPath) (p : FPath) (fs : FS) (src : FSFile)
    (hsup : isSupportedSuffix (fileName p) = true)
    (hfp : fs.findFile p = some src)
    (hUC : unpackedDir ≠ canonicalDir) :
    (unpackFile decomp now unpackedDir canonicalDir p fs).1 = true ∧
      ((unpackFile decomp now unpackedDir canonicalDir p fs).2.findFile
          (canonicalDir ++ [stemOfName (fileName p)])).map FSFile.content =
        some (decomp (suffixOfName (fileName p)) src.content) := by
  have hOC : unpackedDir ++ [stemOfName (fileName p)] ≠
      canonicalDir ++ [stemOfName (fileName p)] := by
    intro he
    exact hUC (append_singleton_inj he).1
  simp only [unpackFile, hsup, if_true, hfp]
  by_cases hex : ((fs.writeFile (unpackedDir ++ [stemOfName (fileName p)])
      (decomp (suffixOfName (fileName p)) src.content) now).existsF
        (canonicalDir ++ [stemOfName (fileName p)])) = true
  · rw [if_pos hex]
    have hfo : ((fs.writeFile (unpackedDir ++ [stemOfName (fileName p)])
        (decomp (suffixOfName (fileName p)) src.content) now).unlink
          (canonicalDir ++ [stemOfName (fileName p)])).findFile
        (unpackedDir ++ [stemOfName (fileName p)]) =
        some ⟨unpackedDir ++ [stemOfName (fileName p)],
          decomp (suffixOfName (fileName p)) src.content, now⟩ := by
      rw [findFile_unlink_ne _ _ _ hOC]
      exact findFile_writeFile_self _ _ _ _
    rw [hfo]
    dsimp only
    exact ⟨rfl, by rw [findFile_writeFile_self]; rfl⟩
  · rw [if_neg hex]
    rw [findFile_writeFile_self]
    dsimp only
    exact ⟨rfl, by rw [findFile_writeFile_self]; rfl⟩

theorem syncRun_no_verify (cfg : Config) (dumpInfo : List (String × DumpDesc))
    (fetch : String → FetchOutcome) (decomp : String → Bytes → Bytes)
    (now : Nat) (fs0 : FS) :
    ((syncRun cfg dumpInfo fetch decomp now fs0).2.events.countP isVerifyEv) =
      0 := by
  have hst2 : (syncSt2 cfg dumpInfo fetch decomp now fs0).events.countP
      isVerifyEv = 0 := by
    unfold syncSt2
    split
    · rw [unpackPhase_no_verify]
      unfold syncSt1
      rw [downloadPhase_no_verify]
      rfl
    · unfold syncSt1
      rw [downloadPhase_no_verify]
      rfl
  have hst3 : (syncSt3 cfg dumpInfo fetch decomp now fs0).events =
      (syncSt2 cfg dumpInfo fetch decomp now fs0).events := by
    unfold syncSt3
    split <;> rfl
  have h2 : (syncRun cfg dumpInfo fetch decomp now fs0).2 =
      syncSt3 cfg dumpInfo fetch decomp now fs0 := rfl
  rw [h2, hst3, hst2]

/-! The claims. -/

/-- C1 counterexample: a compressed file whose modification time (0) is
far older than now minus max_age_days (for now one billion and the
configured thirty days) nevertheless survives the cleanup pass, because
it ranks within keep_versions; the claimed unconditional age pass does
not exist. -/
theorem cleanup_age_claim_counterexample :
    (cleanupOldFiles exCfg exFsOld).findFile ["data", "old.gz"] =
        some ⟨["data", "old.gz"], [1], 0⟩ ∧
      0 + exCfg.maxAgeDays * 86400 < 1000000000 := by
  decide

/-- C1 (amended): the cleanup pass performs no age-based pruning at all —
its result is independent of max_age_days; survival is decided only by
the newest-first count ranking of the two groups. -/
theorem cleanup_ignores_max_age (cfg : Config) (fs : FS) (d : Nat) :
    cleanupOldFiles { cfg with maxAgeDays := d } fs = cleanupOldFiles cfg fs := rfl

/-- C2 counterexample: a descriptor whose size probe failed
(size_bytes = 0) is skipped as up to date when a zero-byte local file of
that name exists — the source checks bare size equality, with no
size_bytes greater than zero guard — so the claimed "never skipped"
half of the equivalence is false. -/
theorem skip_zero_size_counterexample :
    (sync exCfg 0 0 exDump exFetchOne exDecomp 9 exFsZero).2.downloads = 0 ∧
      (sync exCfg 0 0 exDump exFetchOne exDecomp 9 exFsZero).2.successCount = 1 ∧
      (sync exCfg 0 0 exDump exFetchOne exDecomp 9 exFsZero).1 = true ∧
      exDump = [("f.gz", ⟨"u", 0, none⟩)] ∧
      exFsZero.statSize ["data", "f.gz"] = some 0 := by
  decide

/-- C2 (amended): a descriptor is skipped as up to date (no fetch,
counted as success, local file listed for unpacking) exactly when a
local file of that name exists with byte size equal to size_bytes — with
no size_bytes greater than zero condition; otherwise a download is
attempted (fetch issued and counted). -/
theorem skip_iff_exact_size (cfg : Config) (fetch : String → FetchOutcome)
    (now : Nat) (st : SyncState) (filename : String) (info : DumpDesc) :
    (st.fs.statSize (cfg.downloadDirectory ++ [filename]) = some info.size →
      downloadStep cfg fetch now st (filename, info) =
        { st with
          downloadedFiles := st.downloadedFiles ++
            [cfg.downloadDirectory ++ [filename]]
          successCount := st.successCount + 1 }) ∧
    (st.fs.statSize (cfg.downloadDirectory ++ [filename]) ≠ some info.size →
      (downloadStep cfg fetch now st (filename, info)).downloads =
          st.downloads + 1 ∧
        (downloadStep cfg fetch now st (filename, info)).events =
          st.events ++ [Event.fetchUrl info.url]) := by
  constructor
  · intro h
    exact downloadStep_skip cfg fetch now st (filename, info) h
  · intro h
    cases hok : (fetch info.url).ok with
    | true =>
      rw [downloadStep_fetch_ok cfg fetch now st (filename, info) h hok]
      exact ⟨rfl, rfl⟩
    | false =>
      rw [downloadStep_fetch_fail cfg fetch now st (filename, info) h hok]
      exact ⟨rfl, rfl⟩

/-- C2 witness: the amended skip rule applied to the zero-size state. -/
theorem skip_iff_exact_size_witness :
    downloadStep exCfg exFetchOne 9 ⟨exFsZero, 0, 0, [], 0, []⟩
        ("f.gz", ⟨"u", 0, none⟩) =
      ⟨exFsZero, 1, 0, [["data", "f.gz"]], 0, []⟩ :=
  (skip_iff_exact_size exCfg exFetchOne 9 ⟨exFsZero, 0, 0, [], 0, []⟩
    "f.gz" ⟨"u", 0, none⟩).1 (by decide)

/-- C3: after any successful unpack, exactly one file of the archive's
stem name exists in the canonical directory, and its content is the
freshly decompressed content of the compressed source read during this
unpack — never a stale prior version. -/
theorem unpack_canonical_invariant (decomp : String → Bytes → Bytes)
    (now : Nat) (unpackedDir canonicalDir : FPath) (p : FPath) (fs : FS)
    (h : (unpackFile decomp now unpackedDir canonicalDir p fs).1 = true) :
    ∃ src, fs.findFile p = some src ∧
      ((unpackFile decomp now unpackedDir canonicalDir p fs).2.files.countP
        (fun f => f.path == canonicalDir ++ [stemOfName (fileName p)])) = 1 ∧
      ((unpackFile decomp now unpackedDir canonicalDir p fs).2.findFile
          (canonicalDir ++ [stemOfName (fileName p)])).map FSFile.content =
        some (decomp (suffixOfName (fileName p)) src.content) :=
  unpackFile_success_canonical decomp now unpackedDir canonicalDir p fs h

/-- C3 witness: the canonical invariant at a concrete successful unpack. -/
theorem unpack_canonical_invariant_witness :
    ((unpackFile exDecomp 9 ["unp"] ["can"] ["data", "f.gz"] exFsZero).2.files.countP
      (fun f => f.path == ["can"] ++ [stemOfName (fileName ["data", "f.gz"])])) =
      1 := by
  obtain ⟨src, hsrc, hcount, hcontent⟩ :=
    unpack_canonical_invariant exDecomp 9 ["unp"] ["can"] ["data", "f.gz"]
      exFsZero (by decide)
  exact hcount

/-- C4: when a descriptor is not up to date and its fetch fails, the
download directory's entry for that filename is untouched (absent or the
stale file, unchanged), the transferred bytes sit only in the temp
directory, the descriptor is counted as failure (success counter and
downloaded_files list unchanged), and the loop proceeds to the remaining
descriptors. -/
theorem download_failure_leaves_final_dir (cfg : Config)
    (fetch : String → FetchOutcome) (now : Nat) (st : SyncState)
    (filename : String) (info : DumpDesc) (rest : List (String × DumpDesc))
    (hTD : cfg.tempDirectory ≠ cfg.downloadDirectory)
    (hns : st.fs.statSize (cfg.downloadDirectory ++ [filename]) ≠
      some info.size)
    (hbad : (fetch info.url).ok = false) :
    (downloadStep cfg fetch now st (filename, info)).fs.findFile
        (cfg.downloadDirectory ++ [filename]) =
      st.fs.findFile (cfg.downloadDirectory ++ [filename]) ∧
    (downloadStep cfg fetch now st (filename, info)).fs.findFile
        (cfg.tempDirectory ++ [filename]) =
      some ⟨cfg.tempDirectory ++ [filename], (fetch info.url).body, now⟩ ∧
    (downloadStep cfg fetch now st (filename, info)).successCount =
      st.successCount ∧
    (downloadStep cfg fetch now st (filename, info)).downloadedFiles =
      st.downloadedFiles ∧
    downloadPhase cfg fetch now ((filename, info) :: rest) st =
      downloadPhase cfg fetch now rest
        (downloadStep cfg fetch now st (filename, info)) := by
  have hstep := downloadStep_fetch_fail cfg fetch now st (filename, info) hns hbad
  refine ⟨?_, ?_, ?_, ?_, rfl⟩
  · rw [hstep]
    apply findFile_writeFile_ne
    intro he
    exact hTD ((append_singleton_inj he).1).symm
  · rw [hstep]
    exact findFile_writeFile_self _ _ _ _
  · rw [hstep]
  · rw [hstep]

/-- C4 witness: a concrete failed transfer leaves the download directory
entry unchanged. -/
theorem download_failure_witness :
    (downloadStep exCfg exFetchFail 9 ⟨⟨[], [["data"]]⟩, 0, 0, [], 0, []⟩
        ("f.gz", ⟨"u", 5, none⟩)).fs.findFile ["data", "f.gz"] =
      (⟨[], [["data"]]⟩ : FS).findFile ["data", "f.gz"] :=
  (download_failure_leaves_final_dir exCfg exFetchFail 9
    ⟨⟨[], [["data"]]⟩, 0, 0, [], 0, []⟩ "f.gz" ⟨"u", 5, none⟩ []
    (by decide) (by decide) (by decide)).1

/-- C5 counterexample: with the default disjoint layout, a cleanup pass
with keep_versions 3 leaves all four files of the unpacked directory in
place, because the pass only scans the download directory tree; the
claimed bound of at most N unpacked survivors is false. -/
theorem retention_unpacked_counterexample :
    cleanupOldFiles exCfg exFsUnp = exFsUnp ∧
      (exFsUnp.files.countP
        (fun f => parentOf f.path == exCfg.unpackedDirectory)) = 4 ∧
      exCfg.keepVersions = 3 := by
  decide

/-- C5 (amended): among the files the pass actually manages (non-hidden
files below the download directory), at most keep_versions of the
compressed kind and at most keep_versions of the unpacked kind survive,
within each kind every deleted file is no newer than any surviving one
(the survivors are the newest), and in the five-file scenario exactly
the two oldest are deleted; unpacked files outside the download tree
are never pruned. -/
theorem retention_amended (cfg : Config) (fs : FS)
    (hnd : (fs.files.map FSFile.path).Nodup)
    (hdir : fs.dirs.contains cfg.downloadDirectory = true) :
    ((cleanupOldFiles cfg fs).files.countP (isManagedCompressed cfg)) ≤
        cfg.keepVersions ∧
      ((cleanupOldFiles cfg fs).files.countP (isManagedUnpacked cfg)) ≤
        cfg.keepVersions ∧
      (∀ f g, f ∈ fs.files → isManagedCompressed cfg f = true →
        f ∉ (cleanupOldFiles cfg fs).files →
        g ∈ (cleanupOldFiles cfg fs).files → isManagedCompressed cfg g = true →
        f.mtime ≤ g.mtime) ∧
      (∀ f g, f ∈ fs.files → isManagedUnpacked cfg f = true →
        f ∉ (cleanupOldFiles cfg fs).files →
        g ∈ (cleanupOldFiles cfg fs).files → isManagedUnpacked cfg g = true →
        f.mtime ≤ g.mtime) ∧
      (cleanupOldFiles exCfg exFs5).files =
        [⟨["data", "c.gz"], [1], 30⟩, ⟨["data", "d.gz"], [1], 40⟩,
          ⟨["data", "e.gz"], [1], 50⟩] := by
  refine ⟨?_, ?_, ?_, ?_, by decide⟩
  · apply countP_cleanup_le cfg fs _ (compressedGroup cfg fs) hnd hdir
    · intro f hf hk
      exact (mem_compressedGroup cfg fs f).mpr ⟨hf, hk⟩
    · intro f hf
      unfold deletePaths
      exact List.mem_append.mpr (Or.inl (List.mem_map_of_mem _ hf))
  · apply countP_cleanup_le cfg fs _ (unpackedGroup cfg fs) hnd hdir
    · intro f hf hk
      exact (mem_unpackedGroup cfg fs f).mpr ⟨hf, hk⟩
    · intro f hf
      unfold deletePaths
      exact List.mem_append.mpr (Or.inr (List.mem_map_of_mem _ hf))
  · intro f g hf hfk hfdel hg hgk
    exact cleanup_deleted_older cfg fs hnd hdir f g hf hfk hfdel hg hgk
  · intro f g hf hfk hfdel hg hgk
    exact cleanup_deleted_older_unpacked cfg fs hnd hdir f g hf hfk hfdel hg hgk

/-- C5 witness: the amended retention bound at the five-file state. -/
theorem retention_amended_witness :
    ((cleanupOldFiles exCfg exFs5).files.countP (isManagedCompressed exCfg)) ≤
      exCfg.keepVersions :=
  (retention_amended exCfg exFs5 (by decide) (by decide)).1

/-- C6 counterexample: with an unchanged one-descriptor listing whose
size probe failed (size 0) and a one-byte body, the first cycle is fully
successful, yet the second cycle downloads again (one download, not
zero), because the local file's size 1 differs from the probed size 0. -/
theorem sync_twice_counterexample :
    (sync exCfg 0 0 exDump exFetchOne exDecomp 5 ⟨[], []⟩).1 = true ∧
      (sync exCfg 0 0 exDump exFetchOne exDecomp 6
        (sync exCfg 0 0 exDump exFetchOne exDecomp 5 ⟨[], []⟩).2.fs).2.downloads =
        1 := by
  decide

/-- C6 (amended): provided the temp, unpacked and canonical directories
differ from the download directory, cleanup-after-sync is off, the
listing's filenames are distinct, and every successful fetch delivers
exactly size_bytes bytes, then after a fully successful cycle an
immediately repeated sync against the unchanged listing performs zero
downloads and succeeds (every descriptor resolves to the up-to-date
skip). -/
theorem sync_unchanged_listing_second_run (cfg : Config)
    (availMem freeDisk : Nat) (dumpInfo : List (String × DumpDesc))
    (fetch : String → FetchOutcome) (decomp : String → Bytes → Bytes)
    (t1 t2 : Nat) (fs : FS)
    (hTD : cfg.tempDirectory ≠ cfg.downloadDirectory)
    (hUD : cfg.unpackedDirectory ≠ cfg.downloadDirectory)
    (hCD : cfg.canonicalDirectory ≠ cfg.downloadDirectory)
    (hclean : cfg.cleanupAfterSync = false)
    (hnodup : (dumpInfo.map Prod.fst).Nodup)
    (hex : ∀ d ∈ dumpInfo, (fetch d.2.url).ok = true →
      (fetch d.2.url).body.length = d.2.size)
    (h1 : (sync cfg availMem freeDisk dumpInfo fetch decomp t1 fs).1 = true) :
    (sync cfg availMem freeDisk dumpInfo fetch decomp t2
        (sync cfg availMem freeDisk dumpInfo fetch decomp t1 fs).2.fs).2.downloads =
        0 ∧
      (sync cfg availMem freeDisk dumpInfo fetch decomp t2
        (sync cfg availMem freeDisk dumpInfo fetch decomp t1 fs).2.fs).1 =
        true := by
  by_cases hg : checkResources cfg availMem freeDisk = true
  · cases hdi : dumpInfo.isEmpty with
    | true =>
      rw [List.isEmpty_iff.mp hdi] at h1
      rw [sync_empty_catalog cfg availMem freeDisk fetch decomp t1 fs hg] at h1
      exact absurd h1 (by simp)
    | false =>
      rw [sync_nonempty cfg availMem freeDisk dumpInfo fetch decomp t1 fs hg hdi]
        at h1 ⊢
      rw [sync_nonempty cfg availMem freeDisk dumpInfo fetch decomp t2 _ hg hdi]
      have hsizes := syncRun_success_sizes cfg dumpInfo fetch decomp t1
        (makeDirs cfg fs) hTD hUD hCD hclean hnodup hex h1
      apply syncRun_all_skip cfg dumpInfo fetch decomp t2 _ hclean
      intro d hd
      rw [statSize_makeDirs]
      exact hsizes d hd
  · rw [sync_gate_fail cfg availMem freeDisk dumpInfo fetch decomp t1 fs
      (by simpa using hg)] at h1
    exact absurd h1 (by simp)

/-- C6 witness: the amended idempotence at a concrete correct-size
listing: the second run downloads nothing. -/
theorem sync_second_run_witness :
    (sync exCfg 0 0 exDumpOne exFetchOne exDecomp 6
      (sync exCfg 0 0 exDumpOne exFetchOne exDecomp 5 ⟨[], []⟩).2.fs).2.downloads =
      0 :=
  (sync_unchanged_listing_second_run exCfg 0 0 exDumpOne exFetchOne exDecomp 5 6
    ⟨[], []⟩ (by decide) (by decide) (by decide) (by decide) (by decide)
    (by decide) (by decide)).1

/-- C7: the unpacker recognizes exactly the .bz2 and .gz suffixes; on any
other suffix it returns failure and leaves the filesystem untouched, a
file of another suffix is simply skipped by the cycle's unpack loop, and
the loop hands every supported sibling of the list to the unpacker
regardless of any individual failures. -/
theorem unpack_unsupported_not_fatal (decomp : String → Bytes → Bytes)
    (cfg : Config) (now : Nat) (p : FPath) (fs : FS) (st : SyncState)
    (rest : List FPath)
    (h1 : isSupportedSuffix (fileName p) = false) :
    unpackFile decomp now cfg.unpackedDirectory cfg.canonicalDirectory p fs =
        (false, fs) ∧
      unpackPhase decomp cfg now (p :: rest) st =
        unpackPhase decomp cfg now rest st ∧
      (∀ l st', (unpackPhase decomp cfg now l st').events =
        st'.events ++
          (l.filter (fun q => isSupportedSuffix (fileName q))).map
            Event.unpackEv) := by
  refine ⟨unpackFile_unsupported decomp now _ _ p fs h1, ?_,
    fun l st' => unpackPhase_events decomp cfg now l st'⟩
  rw [unpackPhase_cons, unpackStep_unsupported decomp cfg now st p h1]

/-- C7 witness: a .7z file fails without touching the filesystem. -/
theorem unpack_unsupported_witness :
    unpackFile exDecomp 9 exCfg.unpackedDirectory exCfg.canonicalDirectory
        ["data", "a.7z"] exFsZero = (false, exFsZero) :=
  (unpack_unsupported_not_fatal exDecomp exCfg 9 ["data", "a.7z"] exFsZero
    ⟨exFsZero, 0, 0, [], 0, []⟩ [] (by decide)).1

/-- C8: a failing resource gate makes sync return failure with the
filesystem exactly unchanged (no directory created, no file written or
deleted) and an empty trace (no catalog resolution, no fetch); an empty
catalog likewise returns failure with zero counters, the trace holding
only the catalog resolution, and no file touched. -/
theorem sync_gate_or_empty_catalog (cfg : Config) (availMem freeDisk : Nat)
    (dumpInfo : List (String × DumpDesc)) (fetch : String → FetchOutcome)
    (decomp : String → Bytes → Bytes) (now : Nat) (fs : FS) :
    (checkResources cfg availMem freeDisk = false →
      sync cfg availMem freeDisk dumpInfo fetch decomp now fs =
        (false, ⟨fs, 0, 0, [], 0, []⟩)) ∧
      (checkResources cfg availMem freeDisk = true →
        sync cfg availMem freeDisk [] fetch decomp now fs =
            (false, ⟨makeDirs cfg fs, 0, 0, [], 0, [Event.resolveCatalog]⟩) ∧
          (makeDirs cfg fs).files = fs.files) := by
  constructor
  · intro h
    exact sync_gate_fail cfg availMem freeDisk dumpInfo fetch decomp now fs h
  · intro h
    exact ⟨sync_empty_catalog cfg availMem freeDisk fetch decomp now fs h,
      files_makeDirs cfg fs⟩

/-- C8 witness: the gate fails on a one-megabyte memory threshold with no
available memory, and sync returns failure leaving everything as is. -/
theorem sync_gate_witness :
    sync exCfgMem 0 0 exDump exFetchOne exDecomp 9 exFsZero =
      (false, ⟨exFsZero, 0, 0, [], 0, []⟩) :=
  (sync_gate_or_empty_catalog exCfgMem 0 0 exDump exFetchOne exDecomp 9
    exFsZero).1 (by decide)

/-- C9: a descriptor skipped as up to date is appended to the same
downloaded_files list as fresh downloads, so with unpacking enabled the
cycle hands it to the unpacker again (its unpack call is traced) and the
canonical file of its stem is re-promoted to the freshly decompressed
content of the unchanged local archive; no download happens. -/
theorem skip_still_unpacks (cfg : Config) (availMem freeDisk : Nat)
    (fetch : String → FetchOutcome) (decomp : String → Bytes → Bytes)
    (now : Nat) (fs : FS) (filename : String) (info : DumpDesc)
    (hg : checkResources cfg availMem freeDisk = true)
    (hsz : fs.statSize (cfg.downloadDirectory ++ [filename]) = some info.size)
    (hunp : cfg.unpackAfterDownload = true)
    (hclean : cfg.cleanupAfterSync = false)
    (hsup : isSupportedSuffix filename = true)
    (hUC : cfg.unpackedDirectory ≠ cfg.canonicalDirectory) :
    (sync cfg availMem freeDisk [(filename, info)] fetch decomp now fs).2.downloads =
        0 ∧
      (sync cfg availMem freeDisk [(filename, info)] fetch decomp now
        fs).2.downloadedFiles = [cfg.downloadDirectory ++ [filename]] ∧
      Event.unpackEv (cfg.downloadDirectory ++ [filename]) ∈
        (sync cfg availMem freeDisk [(filename, info)] fetch decomp now
          fs).2.events ∧
      ((sync cfg availMem freeDisk [(filename, info)] fetch decomp now
          fs).2.fs.findFile
            (cfg.canonicalDirectory ++ [stemOfName filename])).map
          FSFile.content =
        (fs.findFile (cfg.downloadDirectory ++ [filename])).map
          (fun f => decomp (suffixOfName filename) f.content) := by
  rw [sync_nonempty cfg availMem freeDisk [(filename, info)] fetch decomp now fs
    hg rfl]
  have hsz0 : (makeDirs cfg fs).statSize (cfg.downloadDirectory ++ [filename]) =
      some info.size := by
    rw [statSize_makeDirs]
    exact hsz
  have hst1 : syncSt1 cfg [(filename, info)] fetch now (makeDirs cfg fs) =
      { fs := makeDirs cfg fs, successCount := 1, downloads := 0,
        downloadedFiles := [cfg.downloadDirectory ++ [filename]],
        unpackedCount := 0, events := [Event.resolveCatalog] } := by
    unfold syncSt1
    have hfold : downloadPhase cfg fetch now [(filename, info)]
        ⟨makeDirs cfg fs, 0, 0, [], 0, [Event.resolveCatalog]⟩ =
        downloadStep cfg fetch now
          ⟨makeDirs cfg fs, 0, 0, [], 0, [Event.resolveCatalog]⟩
          (filename, info) := rfl
    rw [hfold, downloadStep_skip cfg fetch now
      ⟨makeDirs cfg fs, 0, 0, [], 0, [Event.resolveCatalog]⟩
      (filename, info) hsz0]
    simp
  have h23 : (syncRun cfg [(filename, info)] fetch decomp now
      (makeDirs cfg fs)).2 =
      syncSt2 cfg [(filename, info)] fetch decomp now (makeDirs cfg fs) := by
    have he : (syncRun cfg [(filename, info)] fetch decomp now
        (makeDirs cfg fs)).2 =
        syncSt3 cfg [(filename, info)] fetch decomp now (makeDirs cfg fs) := rfl
    rw [he, syncSt3_of_no_cleanup cfg [(filename, info)] fetch decomp now
      (makeDirs cfg fs) hclean]
  have hsup' : isSupportedSuffix
      (fileName (cfg.downloadDirectory ++ [filename])) = true := by
    rw [fileName_append_singleton]
    exact hsup
  have hst2 : syncSt2 cfg [(filename, info)] fetch decomp now (makeDirs cfg fs) =
      unpackStep decomp cfg now
        { fs := makeDirs cfg fs, successCount := 1, downloads := 0,
          downloadedFiles := [cfg.downloadDirectory ++ [filename]],
          unpackedCount := 0, events := [Event.resolveCatalog] }
        (cfg.downloadDirectory ++ [filename]) := by
    unfold syncSt2
    rw [hst1]
    simp only [hunp, if_true]
    rfl
  obtain ⟨src, hsrc, hlen⟩ : ∃ src,
      (makeDirs cfg fs).findFile (cfg.downloadDirectory ++ [filename]) =
        some src ∧ src.content.length = info.size := by
    unfold FS.statSize at hsz0
    cases hff : (makeDirs cfg fs).findFile (cfg.downloadDirectory ++ [filename])
      with
    | none =>
      rw [hff] at hsz0
      exact absurd hsz0 (by simp)
    | some s =>
      rw [hff] at hsz0
      exact ⟨s, rfl, by simpa using hsz0⟩
  have hok := unpackFile_success_of decomp now cfg.unpackedDirectory
    cfg.canonicalDirectory (cfg.downloadDirectory ++ [filename])
    (makeDirs cfg fs) src hsup' hsrc hUC
  rw [h23, hst2, unpackStep_supported decomp cfg now
    { fs := makeDirs cfg fs, successCount := 1, downloads := 0,
      downloadedFiles := [cfg.downloadDirectory ++ [filename]],
      unpackedCount := 0, events := [Event.resolveCatalog] }
    (cfg.downloadDirectory ++ [filename]) hsup']
  refine ⟨rfl, rfl, by simp, ?_⟩
  have hcontent := hok.2
  rw [fileName_append_singleton] at hcontent
  rw [hcontent]
  rw [findFile_makeDirs] at hsrc
  rw [hsrc]
  rfl

/-- C9 witness: the up-to-date zero-byte archive is re-unpacked with no
download in a concrete cycle. -/
theorem skip_still_unpacks_witness :
    (sync exCfg 0 0 [("f.gz", (⟨"u", 0, none⟩ : DumpDesc))] exFetchOne exDecomp 9
      exFsZero).2.downloads = 0 :=
  (skip_still_unpacks exCfg 0 0 exFetchOne exDecomp 9 exFsZero "f.gz"
    ⟨"u", 0, none⟩ (by decide) (by decide) (by decide) (by decide) (by decide)
    (by decide)).1

/-- C10: no checksum verification ever occurs in a cycle — the trace of
sync contains no verify event for any input, and the result of sync is
entirely independent of the verify_checksums configuration flag. -/
theorem sync_no_checksum_verification (cfg : Config) (availMem freeDisk : Nat)
    (dumpInfo : List (String × DumpDesc)) (fetch : String → FetchOutcome)
    (decomp : String → Bytes → Bytes) (now : Nat) (fs : FS) (b : Bool) :
    ((sync cfg availMem freeDisk dumpInfo fetch decomp now
        fs).2.events.countP isVerifyEv) = 0 ∧
      sync { cfg with verifyChecksums := b } availMem freeDisk dumpInfo fetch
          decomp now fs =
        sync cfg availMem freeDisk dumpInfo fetch decomp now fs := by
  constructor
  · by_cases hg : checkResources cfg availMem freeDisk = true
    · cases hdi : dumpInfo.isEmpty with
      | true =>
        rw [List.isEmpty_iff.mp hdi,
          sync_empty_catalog cfg availMem freeDisk fetch decomp now fs hg]
        rfl
      | false =>
        rw [sync_nonempty cfg availMem freeDisk dumpInfo fetch decomp now fs hg
          hdi]
        exact syncRun_no_verify cfg dumpInfo fetch decomp now (makeDirs cfg fs)
    · rw [sync_gate_fail cfg availMem freeDisk dumpInfo fetch decomp now fs
        (by simpa using hg)]
      rfl
  · cases cfg
    rfl
